import Mathlib

/-!
Verification of the luxeryprime-agency repository.

This file gives a shallow embedding, in Lean, of the validation, commission,
proxy and retry logic of the repository, and proves (or refutes) the frozen
claims about it.  Numbers that flow through the JavaScript/TypeScript code are
modelled as rationals (`ℚ`), `NaN` and `undefined` are modelled explicitly,
and fallible operations return `Except`/`Option`.
-/

/-! ## A small model of JavaScript values -/

/-- A JavaScript runtime value as it flows through the validators.
`undef` stands for `undefined` (a missing field), `nan` for the number `NaN`,
`num` for a finite number (modelled as a rational), `str` for a string. -/
inductive JsVal where
  | undef : JsVal
  | nan : JsVal
  | num : ℚ → JsVal
  | str : String → JsVal
deriving DecidableEq

/-- JavaScript truthiness: `undefined`, `NaN`, `0` and `""` are falsy. -/
def JsVal.truthy : JsVal → Bool
  | .undef => false
  | .nan => false
  | .num q => q != 0
  | .str s => s != ""

/-- `typeof v === 'number'` (note that `NaN` is a number). -/
def JsVal.isNumberType : JsVal → Bool
  | .num _ => true
  | .nan => true
  | _ => false

/-- Trim of leading and trailing whitespace, the model of `String.prototype.trim`. -/
def jsTrim (s : String) : String :=
  ⟨((s.data.dropWhile Char.isWhitespace).reverse.dropWhile Char.isWhitespace).reverse⟩

/-- Value of a list of decimal digit characters. -/
def decDigitsVal (l : List Char) : ℕ :=
  l.foldl (fun a c => a * 10 + (c.toNat - 48)) 0

/-- Split a character list at the first occurrence of `target`, if any. -/
def splitAtChar (target : Char) : List Char → List Char × Option (List Char)
  | [] => ([], none)
  | c :: rest =>
    if c = target then ([], some rest)
    else
      let p := splitAtChar target rest
      (c :: p.1, p.2)

/-- Split a character list at the first `'.'`, if any. -/
def splitAtDot (l : List Char) : List Char × Option (List Char) := splitAtChar '.' l

/-- `Number(string)` on the decimal forms used by this code base: surrounding
whitespace is ignored, the empty string is `0`, an optional sign is followed by
digits with at most one decimal point; anything else is `NaN` (`none`).
(Exponents, hex literals and `Infinity` do not occur in the repository.) -/
def jsStringToNumber (s : String) : Option ℚ :=
  let t := jsTrim s
  if t = "" then some 0 else
  let signed : ℚ × List Char :=
    match t.data with
    | '-' :: rest => (-1, rest)
    | '+' :: rest => (1, rest)
    | l => (1, l)
  let p := splitAtDot signed.2
  let ip := p.1
  let fp := p.2.getD []
  if ip.all Char.isDigit ∧ fp.all Char.isDigit ∧ (ip ≠ [] ∨ fp ≠ []) then
    some (signed.1 * ((decDigitsVal ip : ℚ) + (decDigitsVal fp : ℚ) / 10 ^ fp.length))
  else none

/-- Numeric coercion of a value, as performed by JavaScript relational and
arithmetic operators; `none` models `NaN`. -/
def JsVal.toNum : JsVal → Option ℚ
  | .undef => none
  | .nan => none
  | .num q => some q
  | .str s => jsStringToNumber s

/-- JavaScript `v >= c` for a number literal `c` (false when `v` coerces to `NaN`). -/
def jsGe (v : JsVal) (c : ℚ) : Bool :=
  match v.toNum with
  | some q => decide (c ≤ q)
  | none => false

/-- JavaScript `v < c` for a number literal `c` (false when `v` coerces to `NaN`). -/
def jsLt (v : JsVal) (c : ℚ) : Bool :=
  match v.toNum with
  | some q => decide (q < c)
  | none => false

/-- `parseFloat(string)`: skip leading whitespace and parse the longest decimal
prefix (optional sign, digits, at most one decimal point); `none` is `NaN`. -/
def jsParseFloat (s : String) : Option ℚ :=
  let t := s.data.dropWhile Char.isWhitespace
  let signed : ℚ × List Char :=
    match t with
    | '-' :: rest => (-1, rest)
    | '+' :: rest => (1, rest)
    | l => (1, l)
  let ip := signed.2.takeWhile Char.isDigit
  let rest₁ := signed.2.dropWhile Char.isDigit
  let fp :=
    match rest₁ with
    | '.' :: r => r.takeWhile Char.isDigit
    | _ => []
  if ip = [] ∧ fp = [] then none
  else some (signed.1 * ((decDigitsVal ip : ℚ) + (decDigitsVal fp : ℚ) / 10 ^ fp.length))

/-- `Math.round`: round half up, i.e. `⌊q + 1/2⌋`. -/
def jsRound (q : ℚ) : ℤ := ⌊q + 1/2⌋

/-- ASCII lower-casing, the model of `String.prototype.toLowerCase` on the
messages this code base inspects. -/
def strToLower (s : String) : String := ⟨s.data.map Char.toLower⟩

/-- Does `pat` occur as a contiguous run inside the second list? -/
def listInfixOf (pat : List Char) : List Char → Bool
  | [] => pat.isPrefixOf ([] : List Char)
  | c :: rest => pat.isPrefixOf (c :: rest) || listInfixOf pat rest

/-- JavaScript `s.includes(sub)`. -/
def jsIncludes (s sub : String) : Bool := listInfixOf sub.data s.data

/-- String rendering of a value inside a template literal.  The exact numeric
formatting of JavaScript is abstracted by `toString` on `ℚ`; no claim inspects
the text of a rendered number. -/
def jsValToString : JsVal → String
  | .undef => "undefined"
  | .nan => "NaN"
  | .num q => toString q
  | .str s => s

/-! ## `CommissionValidator` of `src/app/api/gas/route.ts` -/

/-- The `validLevels` field of both commission validators. -/
def validLevels : List ℚ := [1, 2, 3, 4, 5]

/-- `levelMultipliers`, identical in the route's `CommissionValidator` and in
`commission-validator.js`: `{1: 0.05, 2: 0.10, 3: 0.15, 4: 0.20, 5: 0.25}`;
`none` models an absent key (`undefined`). -/
def levelMultipliers (l : ℚ) : Option ℚ :=
  if l = 1 then some 0.05
  else if l = 2 then some 0.10
  else if l = 3 then some 0.15
  else if l = 4 then some 0.20
  else if l = 5 then some 0.25
  else none

/-- `suggestLevelByEarnings` (identical in the route and in
`commission-validator.js`): thresholds 10000/5000/2000/500. -/
def suggestLevelByEarnings (earnings : JsVal) : ℚ :=
  if jsGe earnings 10000 then 5
  else if jsGe earnings 5000 then 4
  else if jsGe earnings 2000 then 3
  else if jsGe earnings 500 then 2
  else 1

/-- `validateAndCorrectLevel` of the route's `CommissionValidator`:
`if (level && this.validLevels.includes(level)) return level;` else suggest by
earnings.  `includes` is strict equality, so only a number can match. -/
def validateAndCorrectLevel (level earnings : JsVal) : ℚ :=
  match level with
  | .num q =>
    if (JsVal.num q).truthy && decide (q ∈ validLevels) then q
    else suggestLevelByEarnings earnings
  | _ => suggestLevelByEarnings earnings

/-- Character class `[a-zA-Z0-9_-]` of the id regex. -/
def idCharOk (c : Char) : Bool := c.isAlpha || c.isDigit || c = '_' || c = '-'

/-- `isValidId` of the route's `CommissionValidator`:
`typeof id === 'string' && id.trim().length > 0 && /^[a-zA-Z0-9_-]+$/.test(id)`. -/
def isValidId : JsVal → Bool
  | .str s => decide ((jsTrim s).length > 0) && decide (s.length > 0) && s.data.all idCharOk
  | _ => false

/-- `validateEarnings` of the route's `CommissionValidator`; returns
`(isValid, errors)`. -/
def validateEarnings (earnings : JsVal) : Bool × List String :=
  match earnings with
  | .num q =>
    if q < 0 then (false, ["Earnings debe ser un número positivo"])
    else if q > 1000000 then (false, ["Earnings excede el límite máximo permitido"])
    else (true, [])
  | .nan => (false, ["Earnings debe ser un número válido"])
  | _ => (false, ["Earnings debe ser un número válido"])

/-- The input record of the route's `CommissionValidator` (the fields it reads). -/
structure TsStreamerData where
  id : JsVal
  level : JsVal
  earnings : JsVal
deriving DecidableEq

/-- The result record of `validateStreamerData` in the route; `correctedData`
is `{ ...streamerData, level }`, recorded here field by field. -/
structure TsValidationResult where
  isValid : Bool
  errors : List String
  warnings : List String
  correctedId : JsVal
  correctedLevel : ℚ
  correctedEarnings : JsVal
deriving DecidableEq

/-- The uncached body of the route's `validateStreamerData`: id check, level
correction, earnings check, `isValid ⟺ errors = []`. -/
def computeValidation (d : TsStreamerData) : TsValidationResult :=
  let errs₁ : List String :=
    if isValidId d.id then [] else ["ID de streamer es requerido y debe ser string válido"]
  let level := validateAndCorrectLevel d.level d.earnings
  let warns : List String :=
    if d.level = JsVal.num level then []
    else ["Nivel corregido: " ++ jsValToString d.level ++ " → " ++ toString level]
  let ev := validateEarnings d.earnings
  let errs := errs₁ ++ ev.2
  { isValid := errs.isEmpty
    errors := errs
    warnings := warns
    correctedId := d.id
    correctedLevel := level
    correctedEarnings := d.earnings }

/-- The validator's `validationCache`: a map from cache key to cached result
and timestamp.  A `Map.set` is modelled by a shadowing prepend. -/
abbrev ValidationCache := List (String × TsValidationResult × ℤ)

/-- The cache key: `validation_${streamerData.id}_${streamerData.earnings}`.
Note the level is not part of the key. -/
def cacheKey (d : TsStreamerData) : String :=
  "validation_" ++ jsValToString d.id ++ "_" ++ jsValToString d.earnings

/-- `cacheExpiry = 5 * 60 * 1000` milliseconds. -/
def cacheExpiryMs : ℤ := 5 * 60 * 1000

/-- `validateStreamerData` with its cache: return a fresh cached result when
present, otherwise compute and store with the current timestamp. -/
def tsValidateStreamerData (cache : ValidationCache) (now : ℤ) (d : TsStreamerData) :
    TsValidationResult × ValidationCache :=
  let key := cacheKey d
  match List.lookup key cache with
  | some entry =>
    if now - entry.2 < cacheExpiryMs then (entry.1, cache)
    else
      let result := computeValidation d
      (result, (key, result, now) :: cache)
  | none =>
    let result := computeValidation d
    (result, (key, result, now) :: cache)

/-- `calculateCommissionAmount` of the route:
`Math.round(earnings * multiplier * 100) / 100`. -/
def calculateCommissionAmount (earnings multiplier : ℚ) : ℚ :=
  (jsRound (earnings * multiplier * 100) : ℚ) / 100

/-- Result of the route's `calculateCommission`; optional fields are absent on
the other branch, and `commission = none` models a `NaN` result. -/
structure TsCommissionResult where
  success : Bool
  commission : Option ℚ
  level : Option ℚ
  multiplier : Option ℚ
  baseEarnings : Option JsVal
  warnings : Option (List String)
  error : Option String
  errors : Option (List String)
deriving DecidableEq

/-- `calculateCommission` of the route's `CommissionValidator`: validate (with
cache), then multiply by the level multiplier and round, or build the error
response `{success: false, error, errors, commission: 0}`. -/
def tsCalculateCommission (cache : ValidationCache) (now : ℤ) (d : TsStreamerData) :
    TsCommissionResult × ValidationCache :=
  let v := tsValidateStreamerData cache now d
  let validation := v.1
  if validation.isValid then
    let mult := levelMultipliers validation.correctedLevel
    let commission : Option ℚ :=
      match validation.correctedEarnings.toNum, mult with
      | some e, some m => some (calculateCommissionAmount e m)
      | _, _ => none
    ({ success := true
       commission := commission
       level := some validation.correctedLevel
       multiplier := mult
       baseEarnings := some validation.correctedEarnings
       warnings := some validation.warnings
       error := none
       errors := none }, v.2)
  else
    ({ success := false
       commission := some 0
       level := none
       multiplier := none
       baseEarnings := none
       warnings := none
       error := some (String.intercalate ", " validation.errors)
       errors := some validation.errors }, v.2)

/-! ## `FrontendErrorHandler.classifyError` of the API route -/

/-- The fields of a JavaScript `Error` as seen by the classifier; only
`message` is ever read by it. -/
structure JsError where
  message : Option String
  name : String
  stack : String
deriving DecidableEq

/-- `error.message?.toLowerCase() || ''`. -/
def loweredMessage (e : JsError) : String :=
  match e.message with
  | some s => strToLower s
  | none => ""

/-- `FrontendErrorHandler.classifyError`: substring checks on the lowercased
message, in source order. -/
def classifyError (e : JsError) : String :=
  let m := loweredMessage e
  if jsIncludes m "network" || jsIncludes m "connection" || jsIncludes m "timeout" then
    "NETWORK_ERROR"
  else if jsIncludes m "api" || jsIncludes m "http" || jsIncludes m "500" || jsIncludes m "404" then
    "API_ERROR"
  else if jsIncludes m "validation" || jsIncludes m "invalid" then
    "VALIDATION_ERROR"
  else if jsIncludes m "auth" || jsIncludes m "unauthorized" then
    "AUTH_ERROR"
  else
    "UNKNOWN_ERROR"

/-- Written from the wording of the classifier claim: the tag as a function of
the lowercased message text alone, with the categories in the stated order.
This is the specification-side definition used for the refinement proof. -/
def specClassifyError (m : String) : String :=
  if jsIncludes m "network" || jsIncludes m "connection" || jsIncludes m "timeout" then
    "NETWORK_ERROR"
  else if jsIncludes m "api" || jsIncludes m "http" || jsIncludes m "500" || jsIncludes m "404" then
    "API_ERROR"
  else if jsIncludes m "validation" || jsIncludes m "invalid" then
    "VALIDATION_ERROR"
  else if jsIncludes m "auth" || jsIncludes m "unauthorized" then
    "AUTH_ERROR"
  else
    "UNKNOWN_ERROR"

/-! ## The `/api/gas` proxy route -/

/-- The fixed Google Apps Script deployment URL of the route. -/
def GAS_API_URL : String :=
  "https://script.google.com/macros/s/AKfycbxOkgC_boHTVaAFAQQucJ-mXqRoeKMiPwN0W73wxSwLBU6xoi2-vWoc6KAGknS94HmR/exec"

/-- Query parameters of an incoming request, in order. -/
abbrev QueryParams := List (String × String)

/-- `searchParams.get(k)`: the first value bound to `k`, if any. -/
def searchParamsGet (q : QueryParams) (k : String) : Option String := List.lookup k q

/-- JavaScript `x || d` on an optional string: the default is taken when the
parameter is absent or is the empty string (both are falsy). -/
def jsOrElse (v : Option String) (d : String) : String :=
  match v with
  | some s => if s = "" then d else s
  | none => d

/-- The `action` used by the GET handler: `searchParams.get('action') || 'health'`. -/
def getActionParam (q : QueryParams) : String := jsOrElse (searchParamsGet q "action") "health"

/-- The URL the GET handler fetches: `${GAS_API_URL}?action=${action}`. -/
def getFetchUrl (q : QueryParams) : String := GAS_API_URL ++ "?action=" ++ getActionParam q

/-- The `action` used by the POST handler:
`searchParams.get('action') || 'updateStreamer'`. -/
def postActionParam (q : QueryParams) : String :=
  jsOrElse (searchParamsGet q "action") "updateStreamer"

/-- The URL the POST handler fetches: `${GAS_API_URL}?action=${action}`. -/
def postFetchUrl (q : QueryParams) : String := GAS_API_URL ++ "?action=" ++ postActionParam q

/-- Whether the pair `k=v` appears (unchanged) in a URL string. -/
def paramAppearsIn (k v url : String) : Bool := jsIncludes url (k ++ "=" ++ v)

/-- Outcome of the `fetch` + `response.ok` check inside the handlers' `try`
blocks: a thrown error propagates, a non-2xx status becomes
`HTTP error! status: <st>`, a 2xx status yields the parsed body. -/
def httpFetchResult {α : Type} (resp : Except String (ℕ × α)) : Except String α :=
  match resp with
  | .error e => .error e
  | .ok p => if 200 ≤ p.1 ∧ p.1 < 300 then .ok p.2 else .error ("HTTP error! status: " ++ toString p.1)

/-- The JSON response of a route handler, restricted to the fields the claims
are about: HTTP status, `success`, `error` and whether a `data` field is present. -/
structure RouteResponse where
  status : ℕ
  success : Bool
  error : Option String
  hasData : Bool
deriving DecidableEq

/-- The GET handler around its `try`/`catch`: a successful pipeline yields
`{success: true, data}` with status 200, a caught error yields
`{success: false, error: message}` with status 500. -/
def gasGET {α : Type} (pipeline : Except String α) : RouteResponse :=
  match pipeline with
  | .ok _ => { status := 200, success := true, error := none, hasData := true }
  | .error e => { status := 500, success := false, error := some e, hasData := false }

/-- The POST handler around its `try`/`catch`, with the same response shape. -/
def gasPOST {α : Type} (pipeline : Except String α) : RouteResponse :=
  match pipeline with
  | .ok _ => { status := 200, success := true, error := none, hasData := true }
  | .error e => { status := 500, success := false, error := some e, hasData := false }

/-! ## `CommissionValidator` of `src/services/commission-validator.js` -/

/-- `typeof v === 'string'`. -/
def JsVal.isStringType : JsVal → Bool
  | .str _ => true
  | _ => false

/-- `this.validLevels.includes(level)` with strict equality: only a number can
match the numeric entries. -/
def levelInValidLevels : JsVal → Bool
  | .num q => decide (q ∈ validLevels)
  | _ => false

/-- The input record of `commission-validator.js` (the fields it reads). -/
structure JcStreamerData where
  id : JsVal
  level : JsVal
  earnings : JsVal
  country : JsVal
deriving DecidableEq

/-- The result of `validateStreamerData` in `commission-validator.js`.
`correctedData` is the (mutated) input object, recorded field by field. -/
structure JcValidationResult where
  isValid : Bool
  errors : List String
  warnings : List String
  correctedId : JsVal
  correctedLevel : JsVal
  correctedEarnings : JsVal
  correctedCountry : JsVal
deriving DecidableEq

/-- `validateStreamerData` of `commission-validator.js`: id must be a truthy
string; a truthy level outside `validLevels` is replaced by the level suggested
from earnings (a missing level is only reported, not corrected); earnings must
be truthy and not negative; a missing country defaults to `'Colombia'`. -/
def jcValidateStreamerData (d : JcStreamerData) : JcValidationResult :=
  let idErrs : List String :=
    if !d.id.truthy || !d.id.isStringType then ["ID de streamer es requerido y debe ser string"]
    else []
  let levelStep : List String × List String × JsVal :=
    if !d.level.truthy then (["Nivel de streamer es requerido"], [], d.level)
    else if !levelInValidLevels d.level then
      let suggested := suggestLevelByEarnings d.earnings
      ([], ["Nivel inválido (" ++ jsValToString d.level ++ "). Sugerido: " ++ toString suggested],
        JsVal.num suggested)
    else ([], [], d.level)
  let earnErrs : List String :=
    if !d.earnings.truthy || jsLt d.earnings 0 then ["Ganancias deben ser un número positivo"]
    else []
  let countryStep : List String × JsVal :=
    if !d.country.truthy then (["País no especificado, usando valor por defecto"], JsVal.str "Colombia")
    else ([], d.country)
  let errs := idErrs ++ levelStep.1 ++ earnErrs
  { isValid := errs.isEmpty
    errors := errs
    warnings := levelStep.2.1 ++ countryStep.1
    correctedId := d.id
    correctedLevel := levelStep.2.2
    correctedEarnings := d.earnings
    correctedCountry := countryStep.2 }

/-- `this.levelMultipliers[level]` in `commission-validator.js`, where the
property key lookup can only hit for a number equal to one of 1..5. -/
def jcLevelMultiplier : JsVal → Option ℚ
  | .num q => levelMultipliers q
  | _ => none

/-- Result of `calculateCommission` in `commission-validator.js`; the `catch`
branch yields `{success: false, error, commission: 0}`. -/
structure JcCommissionResult where
  success : Bool
  commission : Option ℚ
  level : Option JsVal
  multiplier : Option ℚ
  baseEarnings : Option JsVal
  warnings : Option (List String)
  error : Option String
deriving DecidableEq

/-- `calculateCommission` of `commission-validator.js`: on valid data the
commission is `baseEarnings * multiplier`, with no rounding; invalid data or a
missing multiplier throws, and the `catch` returns
`{success: false, error, commission: 0}`.  (The multiplier values are nonzero,
so the falsiness test `!multiplier` can only fire for an absent key.) -/
def jcCalculateCommission (d : JcStreamerData) : JcCommissionResult :=
  let validation := jcValidateStreamerData d
  if !validation.isValid then
    { success := false
      commission := some 0
      level := none
      multiplier := none
      baseEarnings := none
      warnings := none
      error := some ("Datos de streamer inválidos: " ++ String.intercalate ", " validation.errors) }
  else
    match jcLevelMultiplier validation.correctedLevel with
    | none =>
      { success := false
        commission := some 0
        level := none
        multiplier := none
        baseEarnings := none
        warnings := none
        error := some ("Multiplicador no encontrado para nivel "
          ++ jsValToString validation.correctedLevel) }
    | some m =>
      let commission : Option ℚ :=
        match validation.correctedEarnings.toNum with
        | some e => some (e * m)
        | none => none
      { success := true
        commission := commission
        level := some validation.correctedLevel
        multiplier := some m
        baseEarnings := some validation.correctedEarnings
        warnings := some validation.warnings
        error := none }

/-! ## `StreamerValidator` of `src/services/streamer-validator.js`

Fields on which the original calls string methods unconditionally after a
truthiness check (`name`, `email`, `country`, `phone`, `binanceEmail`) are
modelled as `Option String`: a truthy non-string value there makes the
JavaScript throw a `TypeError` instead of returning, which is outside the
"whenever the validator returns" scope of the claims.  The `level` field is
modelled as `Option ℚ` (a missing level, `NaN` and a number behave alike in
the `!level` test, and no relational comparison distinguishes them). -/

/-- The `validCountries` list. -/
def svValidCountries : List String :=
  ["Colombia", "México", "Venezuela", "Perú", "Ecuador", "Chile", "Argentina"]

/-- One-or-more characters of the class `[^\s@]`. -/
def emailChunkOk (l : List Char) : Bool :=
  !l.isEmpty && l.all (fun c => !(c.isWhitespace || c = '@'))

/-- A `'.'` with at least one character on each side, as the tail
`[^\s@]+\.[^\s@]+` of the email regex requires once the character class has
been checked for the whole segment. -/
def hasInteriorDot (l : List Char) : Bool :=
  (List.range l.length).any fun i =>
    (l.get? i == some '.') && decide (1 ≤ i) && decide (i + 2 ≤ l.length)

/-- `/^[^\s@]+@[^\s@]+\.[^\s@]+$/.test s`: exactly one `'@'`; a nonempty
whitespace-free local part; a domain part that is whitespace-free, `'@'`-free
and contains a dot that is neither its first nor its last character. -/
def emailRegexTest (s : String) : Bool :=
  match splitAtChar '@' s.data with
  | (_, none) => false
  | (a, some b) => emailChunkOk a && emailChunkOk b && hasInteriorDot b

/-- The typo table of `attemptEmailCorrection`, in `Object.entries` order. -/
def svCorrections : List (String × List String) :=
  [("gmail.com", ["gmial.com", "gmail.co", "gmail.coom"]),
   ("hotmail.com", ["hotmial.com", "hotmail.co", "hotmail.coom"]),
   ("yahoo.com", ["yaho.com", "yahoo.co", "yahoo.coom"])]

/-- JavaScript `String.prototype.replace` with a string pattern: replace the
first occurrence only. -/
def replaceFirst : List Char → List Char → List Char → List Char
  | [], _pat, _rep => []
  | c :: cs, pat, rep =>
    if pat.isPrefixOf (c :: cs) then rep ++ (c :: cs).drop pat.length
    else c :: replaceFirst cs pat rep

/-- The nested loop of `attemptEmailCorrection`: first typo (in table order)
contained in the email wins, and is replaced by the correct domain. -/
def findCorrection (email : String) : List (String × List String) → Option String
  | [] => none
  | entry :: rest =>
    match entry.2.find? (fun typo => jsIncludes email typo) with
    | some typo => some ⟨replaceFirst email.data typo.data entry.1.data⟩
    | none => findCorrection email rest

/-- `attemptEmailCorrection`. -/
def attemptEmailCorrection (email : String) : Option String :=
  findCorrection email svCorrections

/-- Result of `validateEmail` in `streamer-validator.js`. -/
structure SvEmailResult where
  isValid : Bool
  error : Option String
  corrected : Option String
  original : Option String
deriving DecidableEq

/-- `validateEmail` of `streamer-validator.js`: a falsy email is required; the
cleaned (lowercased, trimmed) email is matched against the regex; on failure an
automatic typo correction is attempted. -/
def svValidateEmail (email : Option String) : SvEmailResult :=
  match email with
  | none =>
    { isValid := false, error := some "Email es requerido", corrected := none, original := none }
  | some e =>
    if e = "" then
      { isValid := false, error := some "Email es requerido", corrected := none, original := none }
    else
      let cleaned := jsTrim (strToLower e)
      if emailRegexTest cleaned then
        { isValid := true, error := none, corrected := some cleaned, original := none }
      else
        { isValid := false
          error := some "Formato de email inválido"
          corrected := attemptEmailCorrection cleaned
          original := some e }

/-- `findSimilarCountry`: first valid country (in list order) whose lowercasing
contains, or is contained in, the lowercased input. -/
def findSimilarCountry (input : String) : Option String :=
  svValidCountries.find? fun country =>
    jsIncludes (strToLower country) (strToLower input)
      || jsIncludes (strToLower input) (strToLower country)

/-- `/^[\+]?[1-9][\d]{0,15}$/.test s`: an optional `'+'`, a nonzero digit, then
at most 15 further digits. -/
def phoneRegexTest (s : String) : Bool :=
  let body :=
    match s.data with
    | '+' :: rest => rest
    | l => l
  match body with
  | [] => false
  | c :: rest =>
    c.isDigit && !(c = '0') && rest.all Char.isDigit && decide (rest.length ≤ 15)

/-- `parseFloat` applied to a field value: a number parses to itself, a string
to its longest decimal prefix, anything else is `NaN`. -/
def jsParseFloatVal : JsVal → JsVal
  | .num q => .num q
  | .str s =>
    match jsParseFloat s with
    | some q => .num q
    | none => .nan
  | _ => .nan

/-- The input record of `validateStreamer` (the fields it reads). -/
structure SvStreamerData where
  id : JsVal
  name : Option String
  email : Option String
  country : Option String
  level : Option ℚ
  earnings : JsVal
  phone : Option String
  binanceEmail : Option String
deriving DecidableEq

/-- Result of `validateStreamer`; `correctedData` starts as a copy of the input
and is recorded field by field. -/
structure SvValidationResult where
  isValid : Bool
  errors : List String
  warnings : List String
  correctedId : JsVal
  correctedName : Option String
  correctedEmail : Option String
  correctedCountry : Option String
  correctedLevel : Option ℚ
  correctedEarnings : JsVal
  correctedPhone : Option String
  correctedBinanceEmail : Option String
  hasCorrections : Bool
deriving DecidableEq

/-- Truthiness of an optional string field (`undefined` and `""` are falsy). -/
def optStrTruthy : Option String → Bool
  | none => false
  | some s => s != ""

/-- Truthiness of the optional numeric `level` field. -/
def optLevelTruthy : Option ℚ → Bool
  | none => false
  | some q => q != 0

/-- `validateStreamer` of `streamer-validator.js`, step by step in source
order: id, name, email (with automatic correction), country (with default and
similarity correction), level (defaulted to 1 when falsy or out of `[1, 5]`),
earnings (`parseFloat` on success), optional phone and optional Binance email. -/
def svValidateStreamer (d : SvStreamerData) : SvValidationResult :=
  let idStep : List String × JsVal :=
    if !d.id.truthy then (["ID de streamer es requerido"], d.id)
    else ([], JsVal.str (jsTrim (jsValToString d.id)))
  let nameStep : List String × Option String :=
    match d.name with
    | none => (["Nombre es requerido"], d.name)
    | some n =>
      if n = "" then (["Nombre es requerido"], d.name)
      else
        let trimmed := jsTrim n
        if trimmed.length < 2 then (["Nombre debe tener al menos 2 caracteres"], some trimmed)
        else ([], some trimmed)
  let emailV := svValidateEmail d.email
  let emailStep : List String × List String × Option String :=
    if !emailV.isValid then
      match emailV.corrected with
      | some corrected =>
        ([], ["Email corregido: " ++ (d.email.getD "") ++ " → " ++ corrected], some corrected)
      | none => ([emailV.error.getD ""], [], d.email)
    else ([], [], emailV.corrected)
  let countryStep : List String × List String × Option String :=
    match d.country with
    | none => ([], ["País no especificado, usando Colombia por defecto"], some "Colombia")
    | some c₀ =>
      if c₀ = "" then ([], ["País no especificado, usando Colombia por defecto"], some "Colombia")
      else
        let c := jsTrim c₀
        if c ∈ svValidCountries then ([], [], some c)
        else
          match findSimilarCountry c with
          | some similar => ([], ["País corregido: " ++ c ++ " → " ++ similar], some similar)
          | none =>
            (["País no válido: " ++ c ++ ". Países válidos: "
                ++ String.intercalate ", " svValidCountries], [], d.country)
  let levelStep : List String × Option ℚ :=
    if !optLevelTruthy d.level
        || (match d.level with | some q => decide (q < 1) | none => false)
        || (match d.level with | some q => decide (q > 5) | none => false) then
      (["Nivel inválido, asignando nivel 1 por defecto"], some 1)
    else ([], d.level)
  let earningsStep : List String × JsVal :=
    if !d.earnings.truthy || jsLt d.earnings 0 then
      (["Ganancias deben ser un número positivo"], d.earnings)
    else ([], jsParseFloatVal d.earnings)
  let phoneStep : List String × Option String :=
    match d.phone with
    | none => ([], d.phone)
    | some p =>
      if p = "" then ([], d.phone)
      else
        let cleaned : String := ⟨p.data.filter (fun c => !c.isWhitespace)⟩
        if !phoneRegexTest cleaned then
          (["Formato de teléfono inválido, pero es opcional"], d.phone)
        else ([], some cleaned)
  let binanceStep : List String × Option String :=
    if !optStrTruthy d.binanceEmail then ([], d.binanceEmail)
    else
      let v := svValidateEmail d.binanceEmail
      if !v.isValid then
        match v.corrected with
        | some corrected =>
          (["Email Binance corregido: " ++ (d.binanceEmail.getD "") ++ " → " ++ corrected],
            some corrected)
        | none => (["Email Binance inválido, pero es opcional"], none)
      else ([], v.corrected)
  let errors := idStep.1 ++ nameStep.1 ++ emailStep.1 ++ countryStep.1 ++ earningsStep.1
  let warnings := emailStep.2.1 ++ countryStep.2.1 ++ levelStep.1 ++ phoneStep.1 ++ binanceStep.1
  { isValid := errors.isEmpty
    errors := errors
    warnings := warnings
    correctedId := idStep.2
    correctedName := nameStep.2
    correctedEmail := emailStep.2.2
    correctedCountry := countryStep.2.2
    correctedLevel := levelStep.2
    correctedEarnings := earningsStep.2
    correctedPhone := phoneStep.2
    correctedBinanceEmail := binanceStep.2
    hasCorrections := decide (0 < warnings.length) }

/-! ## `NetworkResilience` of `src/services/network-resilience.js`

The per-attempt `executeWithTimeout` wrapper resolves with the operation's
result or rejects (with the operation's error or a timeout error); each
invocation of the operation is therefore modelled by one entry of an outcome
stream `ops : ℕ → Except String α`.  `Date.now()` at the k-th loop iteration is
modelled by `now k`, and the `Math.random()`-based jitter of the exponential
backoff by `jitter k`. -/

/-- The circuit breaker states `CLOSED`, `OPEN`, `HALF_OPEN`. -/
inductive CBState where
  | closed : CBState
  | cbOpen : CBState
  | halfOpen : CBState
deriving DecidableEq

/-- The `circuitBreaker` record. -/
structure CircuitBreaker where
  state : CBState
  failureCount : ℕ
  lastFailureTime : Option ℤ
deriving DecidableEq

/-- The constructor's initial circuit breaker, also the result of
`resetCircuitBreaker`. -/
def initialCircuitBreaker : CircuitBreaker :=
  { state := CBState.closed, failureCount := 0, lastFailureTime := none }

/-- The configuration fields `executeWithRetry` reads (after the
`{...this.config, ...options}` merge); the per-attempt timeout is folded into
the outcome stream. -/
structure RetryConfig where
  maxRetries : ℕ
  baseDelay : ℚ
  maxDelay : ℚ
  circuitBreakerTimeout : ℤ
deriving DecidableEq

/-- The constructor's `this.config` values. -/
def defaultRetryConfig : RetryConfig :=
  { maxRetries := 3, baseDelay := 1000, maxDelay := 10000, circuitBreakerTimeout := 60000 }

/-- The constructor's `circuitBreakerThreshold` (read from `this.config`, not
from the merged options, by `updateCircuitBreaker`). -/
def defaultCircuitBreakerThreshold : ℕ := 5

/-- `updateCircuitBreaker`: count the failure, stamp the time, and open the
breaker once the threshold is reached. -/
def updateCircuitBreaker (threshold : ℕ) (cb : CircuitBreaker) (now : ℤ) : CircuitBreaker :=
  let fc := cb.failureCount + 1
  { state := if threshold ≤ fc then CBState.cbOpen else cb.state
    failureCount := fc
    lastFailureTime := some now }

/-- The retry strategies of `calculateDelay`. -/
inductive RetryStrategy where
  | exponential : RetryStrategy
  | linear : RetryStrategy
  | fixed : RetryStrategy
deriving DecidableEq

/-- `calculateDelay`: exponential backoff (with jitter), linear backoff, or a
fixed delay. -/
def calculateDelay (strategy : RetryStrategy) (attempt : ℕ) (cfg : RetryConfig)
    (jitter : ℚ) : ℚ :=
  match strategy with
  | .exponential => min (cfg.baseDelay * 2 ^ (attempt - 1)) cfg.maxDelay + jitter
  | .linear => min (cfg.baseDelay * attempt) cfg.maxDelay
  | .fixed => cfg.baseDelay

/-- What a run of `executeWithRetry` produced: its result, how many times the
operation was invoked, the sleeps performed between attempts, and the final
circuit breaker. -/
structure RetryOutcome (α : Type) where
  result : Except String α
  invocations : ℕ
  sleeps : List ℚ
  finalBreaker : CircuitBreaker

/-- The message thrown after the final failed attempt. -/
def failAfterMessage (n : ℕ) (lastErr : String) : String :=
  "Operación falló después de " ++ toString n ++ " intentos. Último error: " ++ lastErr

/-- The error thrown when the circuit breaker is open and not yet timed out. -/
def cbOpenMessage : String :=
  "Circuit breaker está ABIERTO - Servicio temporalmente no disponible"

/-- The `for` loop of `executeWithRetry`, one iteration per remaining attempt.
When the breaker is open and not timed out the body throws before invoking the
operation, and the `catch` treats this like any failed attempt; a success
resets the breaker and returns immediately; after a failure the loop sleeps
`calculateDelay` when further attempts remain. -/
def retryGo {α : Type} (cfg : RetryConfig) (threshold : ℕ) (strategy : RetryStrategy)
    (now : ℕ → ℤ) (jitter : ℕ → ℚ) (ops : ℕ → Except String α) :
    ℕ → ℕ → ℕ → CircuitBreaker → Option String → List ℚ → RetryOutcome α
  | _attempt, 0, inv, cb, lastErr, sleeps =>
    { result := Except.error
        (match lastErr with
         | some e => failAfterMessage cfg.maxRetries e
         | none => "TypeError: lastError is undefined")
      invocations := inv
      sleeps := sleeps
      finalBreaker := cb }
  | attempt, r + 1, inv, cb, _lastErr, sleeps =>
    if cb.state = CBState.cbOpen
        ∧ ¬ (now attempt - (cb.lastFailureTime.getD 0) > cfg.circuitBreakerTimeout) then
      let cb' := updateCircuitBreaker threshold cb (now attempt)
      let sleeps' :=
        if attempt < cfg.maxRetries then
          sleeps ++ [calculateDelay strategy attempt cfg (jitter attempt)]
        else sleeps
      retryGo cfg threshold strategy now jitter ops (attempt + 1) r inv cb'
        (some cbOpenMessage) sleeps'
    else
      let cb₁ :=
        if cb.state = CBState.cbOpen then { cb with state := CBState.halfOpen } else cb
      match ops inv with
      | Except.ok v =>
        { result := Except.ok v
          invocations := inv + 1
          sleeps := sleeps
          finalBreaker := initialCircuitBreaker }
      | Except.error e =>
        let cb' := updateCircuitBreaker threshold cb₁ (now attempt)
        let sleeps' :=
          if attempt < cfg.maxRetries then
            sleeps ++ [calculateDelay strategy attempt cfg (jitter attempt)]
          else sleeps
        retryGo cfg threshold strategy now jitter ops (attempt + 1) r (inv + 1) cb'
          (some e) sleeps'

/-- `executeWithRetry`: run the loop for `maxRetries` attempts starting from
the instance's current circuit breaker. -/
def executeWithRetry {α : Type} (cfg : RetryConfig) (threshold : ℕ) (strategy : RetryStrategy)
    (now : ℕ → ℤ) (jitter : ℕ → ℚ) (ops : ℕ → Except String α) (cb : CircuitBreaker) :
    RetryOutcome α :=
  retryGo cfg threshold strategy now jitter ops 1 cfg.maxRetries 0 cb none []

/-! ## `CommissionService` and the Firestore layer (unnamed source parts) -/

/-- The statuses the data model allows for a commission. -/
def validCommissionStatuses : List String := ["pending", "paid", "failed"]

/-- `commissionRates` of `CommissionService`:
`{1: 0.15, 2: 0.20, 3: 0.25, 4: 0.30, 5: 0.35}`. -/
def commissionRates (l : ℚ) : Option ℚ :=
  if l = 1 then some 0.15
  else if l = 2 then some 0.20
  else if l = 3 then some 0.25
  else if l = 4 then some 0.30
  else if l = 5 then some 0.35
  else none

/-- The fields of the looked-up streamer that `calculateCommission` reads. -/
structure CsStreamer where
  name : Option String
  agency : Option String
  level : Option ℚ
deriving DecidableEq

/-- The commission record built by `CommissionService.calculateCommission`
(the generated id and the two timestamps are omitted). -/
structure CsCommission where
  streamerId : String
  streamerName : Option String
  agency : String
  app : String
  level : ℚ
  baseAmount : ℚ
  commissionRate : ℚ
  commissionAmount : ℚ
  netAmount : ℚ
  status : String
deriving DecidableEq

/-- `CommissionService.calculateCommission`: look up the streamer (the lookup
result is a parameter, `none` modelling the guarded missing case, which
throws), default the level to 1 and the rate to 0.15, compute
`amount * rate`, and build the record with `status: 'pending'`. -/
def csCalculateCommission (streamer : Option CsStreamer) (streamerId : String)
    (amount : ℚ) (app : String) : Except String CsCommission :=
  match streamer with
  | none => Except.error ("Streamer " ++ streamerId ++ " no encontrado")
  | some s =>
    let level : ℚ :=
      match s.level with
      | some q => if q ≠ 0 then q else 1
      | none => 1
    let rate := (commissionRates level).getD 0.15
    let commissionAmount := amount * rate
    Except.ok
      { streamerId := streamerId
        streamerName := s.name
        agency := jsOrElse s.agency "luxeryprime"
        app := app
        level := level
        baseAmount := amount
        commissionRate := rate
        commissionAmount := commissionAmount
        netAmount := amount - commissionAmount
        status := "pending" }

/-- The document stored by `FirestoreService.createCommission`: the incoming
fields are spread first and `status: 'pending'` is written after the spread,
so the stored status is always `'pending'` whatever the input carried. -/
def fsCreateCommissionStatus (_incomingStatus : Option String) : String := "pending"

/-- The status cell written by `syncCommissionsToSheets` for a commission row:
`commission.status || 'pending'`. -/
def syncCommissionRowStatus (status : Option String) : String := jsOrElse status "pending"

/-! ## Shared helper lemmas -/

/-- `isValidId` rejects exactly the non-strings and the strings that are empty
after trimming or contain a character outside `[a-zA-Z0-9_-]`. -/
theorem isValidId_eq_false_iff (v : JsVal) :
    isValidId v = false ↔
      ((∀ s, v ≠ JsVal.str s)
        ∨ ∃ s, v = JsVal.str s ∧ (jsTrim s = "" ∨ ∃ c ∈ s.data, idCharOk c = false)) := by
  cases v with
  | undef => simp [isValidId]
  | nan => simp [isValidId]
  | num q => simp [isValidId]
  | str s =>
    have hempty : ∀ t : String, t.data = [] → t = "" := fun t ht => by
      cases t; cases ht; rfl
    simp only [isValidId, Bool.and_eq_false_iff, decide_eq_false_iff_not, not_lt, Nat.le_zero]
    constructor
    · rintro ((h | h) | h)
      · exact Or.inr ⟨s, rfl, Or.inl (hempty _ (List.length_eq_zero.mp h))⟩
      · refine Or.inr ⟨s, rfl, Or.inl ?_⟩
        have hs : s = "" := hempty _ (List.length_eq_zero.mp h)
        cases hs; decide
      · refine Or.inr ⟨s, rfl, Or.inr ?_⟩
        by_contra hno
        push_neg at hno
        have hall : s.data.all idCharOk = true := by
          rw [List.all_eq_true]
          intro c hc
          cases hcc : idCharOk c with
          | false => exact absurd hcc (hno c hc)
          | true => rfl
        rw [hall] at h
        cases h
    · rintro (h | ⟨s', hs', hcase⟩)
      · exact absurd rfl (h s)
      · injection hs' with hss
        cases hss
        rcases hcase with h | ⟨c, hc, hbad⟩
        · left; left
          rw [h]
          rfl
        · right
          cases hall : s.data.all idCharOk with
          | false => rfl
          | true =>
            rw [List.all_eq_true] at hall
            have := hall c hc
            rw [hbad] at this
            cases this

/-- The uncached validation marks `isValid` exactly when its error list is empty. -/
theorem computeValidation_isValid_iff (d : TsStreamerData) :
    (computeValidation d).isValid = true ↔ (computeValidation d).errors = [] := by
  simp only [computeValidation]
  rw [List.isEmpty_iff]

/-- A validation that passed carries numeric earnings. -/
theorem computeValidation_earnings_of_isValid (d : TsStreamerData)
    (h : (computeValidation d).isValid = true) :
    ∃ e : ℚ, d.earnings = JsVal.num e := by
  rw [computeValidation_isValid_iff] at h
  simp only [computeValidation] at h
  have hev : (validateEarnings d.earnings).2 = [] := by
    rcases List.append_eq_nil.mp h with ⟨-, h2⟩
    exact h2
  cases he : d.earnings with
  | num q => exact ⟨q, rfl⟩
  | undef => rw [he] at hev; simp [validateEarnings] at hev
  | nan => rw [he] at hev; simp [validateEarnings] at hev
  | str s => rw [he] at hev; simp [validateEarnings] at hev

/-- The suggested level is always one of the valid levels. -/
theorem suggestLevel_mem (e : JsVal) : suggestLevelByEarnings e ∈ validLevels := by
  unfold suggestLevelByEarnings
  split_ifs <;> norm_num [validLevels]

/-- `validateAndCorrectLevel` always lands in `validLevels`. -/
theorem vacl_mem (level earnings : JsVal) :
    validateAndCorrectLevel level earnings ∈ validLevels := by
  cases level with
  | num q =>
    simp only [validateAndCorrectLevel]
    split_ifs with h
    · exact of_decide_eq_true (Bool.and_elim_right h)
    · exact suggestLevel_mem earnings
  | undef => exact suggestLevel_mem earnings
  | nan => exact suggestLevel_mem earnings
  | str _ => exact suggestLevel_mem earnings

/-- Every valid level is an integer between 1 and 5. -/
theorem validLevels_int (q : ℚ) (hq : q ∈ validLevels) :
    ∃ n : ℤ, 1 ≤ n ∧ n ≤ 5 ∧ q = (n : ℚ) := by
  simp only [validLevels, List.mem_cons, List.mem_singleton, List.not_mem_nil, or_false] at hq
  rcases hq with h | h | h | h | h
  · exact ⟨1, by norm_num, by norm_num, by rw [h]; norm_num⟩
  · exact ⟨2, by norm_num, by norm_num, by rw [h]; norm_num⟩
  · exact ⟨3, by norm_num, by norm_num, by rw [h]; norm_num⟩
  · exact ⟨4, by norm_num, by norm_num, by rw [h]; norm_num⟩
  · exact ⟨5, by norm_num, by norm_num, by rw [h]; norm_num⟩

/-- Valid levels always have a multiplier. -/
theorem levelMultipliers_some (q : ℚ) (hq : q ∈ validLevels) :
    ∃ m : ℚ, levelMultipliers q = some m := by
  simp only [validLevels, List.mem_cons, List.mem_singleton, List.not_mem_nil, or_false] at hq
  rcases hq with h | h | h | h | h <;> rw [h] <;> simp [levelMultipliers]

/-- A validation of `commission-validator.js` that reported the earnings error
is marked invalid. -/
theorem jcValidation_errors_nonempty (d : JcStreamerData)
    (h : "Ganancias deben ser un número positivo" ∈ (jcValidateStreamerData d).errors) :
    (jcValidateStreamerData d).isValid = false := by
  have hne : (jcValidateStreamerData d).errors ≠ [] := List.ne_nil_of_mem h
  have hiv : (jcValidateStreamerData d).isValid = (jcValidateStreamerData d).errors.isEmpty := by
    simp [jcValidateStreamerData]
  rw [hiv]
  cases herr : (jcValidateStreamerData d).errors with
  | nil => exact absurd herr hne
  | cons a l => simp [herr]

/-! ## The claims -/

/-- C1 (corrected), counterexample to the original claim: on the accepted
streamer `{id: "s1", level: 3, earnings: 100.01}`, `calculateCommission` of
`commission-validator.js` returns the commission `100.01 * 0.15 = 15.0015`,
which differs from the claimed `Math.round(earnings * multiplier * 100) / 100
= 15`. -/
theorem C1_cex :
    ((jcCalculateCommission
        { id := JsVal.str "s1", level := JsVal.num 3,
          earnings := JsVal.num (10001/100), country := JsVal.str "Colombia" }).commission
      = some (30003/2000))
  ∧ ((30003/2000 : ℚ) = (10001/100 : ℚ) * (15/100))
  ∧ ((30003/2000 : ℚ) ≠ (jsRound ((10001/100 : ℚ) * (15/100) * 100) : ℚ) / 100) := by
  have hval : (jcValidateStreamerData
      { id := JsVal.str "s1", level := JsVal.num 3,
        earnings := JsVal.num (10001/100), country := JsVal.str "Colombia" })
      = { isValid := true, errors := [], warnings := [],
          correctedId := JsVal.str "s1", correctedLevel := JsVal.num 3,
          correctedEarnings := JsVal.num (10001/100),
          correctedCountry := JsVal.str "Colombia" } := by
    have h1 : (JsVal.num (10001/100 : ℚ)).truthy = true := by
      simp [JsVal.truthy]
    have h2 : jsLt (JsVal.num (10001/100 : ℚ)) 0 = false := by
      simp [jsLt, JsVal.toNum]
      norm_num
    have h3 : levelInValidLevels (JsVal.num 3) = true := by
      simp [levelInValidLevels, validLevels]
    simp [jcValidateStreamerData, JsVal.truthy, JsVal.isStringType, h1, h2, h3]
  refine ⟨?_, by norm_num, ?_⟩
  · simp only [jcCalculateCommission, hval]
    norm_num [jcLevelMultiplier, levelMultipliers, JsVal.toNum]
  · norm_num [jsRound, Int.floor_eq_iff]

/-- C1 (corrected): on every accepted input the TypeScript validator of the API
route returns the rounded commission `Math.round(earnings * multiplier * 100) /
100`, while the JavaScript implementation in `commission-validator.js` returns
`baseEarnings * multiplier` with no rounding. -/
theorem C1_thm :
    (∀ (t : ℤ) (d : TsStreamerData),
        (tsCalculateCommission [] t d).1.success = true →
        ∃ e m : ℚ, d.earnings = JsVal.num e
          ∧ (tsCalculateCommission [] t d).1.multiplier = some m
          ∧ (tsCalculateCommission [] t d).1.commission
              = some ((jsRound (e * m * 100) : ℚ) / 100))
  ∧ (∀ d : JcStreamerData,
        (jcCalculateCommission d).success = true →
        ∃ (be : JsVal) (m : ℚ),
          (jcCalculateCommission d).baseEarnings = some be
          ∧ (jcCalculateCommission d).multiplier = some m
          ∧ (jcCalculateCommission d).commission = be.toNum.map (fun e => e * m)) := by
  constructor
  · intro t d h
    have hfirst : tsValidateStreamerData [] t d
        = (computeValidation d, [(cacheKey d, computeValidation d, t)]) := by
      simp [tsValidateStreamerData]
    by_cases hv : (computeValidation d).isValid
    · obtain ⟨e, he⟩ := computeValidation_earnings_of_isValid d hv
      have hlvl : (computeValidation d).correctedLevel ∈ validLevels := by
        simp only [computeValidation]
        exact vacl_mem _ _
      obtain ⟨m, hm⟩ := levelMultipliers_some _ hlvl
      have hce : (computeValidation d).correctedEarnings = d.earnings := by
        simp [computeValidation]
      refine ⟨e, m, he, ?_, ?_⟩
      · simp [tsCalculateCommission, hfirst, hv, hm]
      · simp [tsCalculateCommission, hfirst, hv, hm, hce, he, JsVal.toNum,
          calculateCommissionAmount]
    · simp [tsCalculateCommission, hfirst, hv] at h
  · intro d h
    by_cases hv : (jcValidateStreamerData d).isValid
    · cases hmul : jcLevelMultiplier (jcValidateStreamerData d).correctedLevel with
      | none => simp [jcCalculateCommission, hv, hmul] at h
      | some m =>
        refine ⟨(jcValidateStreamerData d).correctedEarnings, m, ?_, ?_, ?_⟩
        · simp [jcCalculateCommission, hv, hmul]
        · simp [jcCalculateCommission, hv, hmul]
        · cases htn : (jcValidateStreamerData d).correctedEarnings.toNum with
          | none => simp [jcCalculateCommission, hv, hmul, htn]
          | some e => simp [jcCalculateCommission, hv, hmul, htn]
    · simp [jcCalculateCommission, hv] at h

/-- C1 witness: the route's calculator accepts `{id: "s1", level: 3, earnings:
100}` and its commission then has the rounded form. -/
theorem C1_witness :
    (tsCalculateCommission [] 0
        { id := JsVal.str "s1", level := JsVal.num 3, earnings := JsVal.num 100 }).1.success
      = true
  ∧ ∃ e m : ℚ, JsVal.num 100 = JsVal.num e
      ∧ (tsCalculateCommission [] 0
          { id := JsVal.str "s1", level := JsVal.num 3,
            earnings := JsVal.num 100 }).1.multiplier = some m
      ∧ (tsCalculateCommission [] 0
          { id := JsVal.str "s1", level := JsVal.num 3,
            earnings := JsVal.num 100 }).1.commission
          = some ((jsRound (e * m * 100) : ℚ) / 100) := by
  have hsucc : (tsCalculateCommission [] 0
      { id := JsVal.str "s1", level := JsVal.num 3, earnings := JsVal.num 100 }).1.success
      = true := by
    have hval : (computeValidation
        { id := JsVal.str "s1", level := JsVal.num 3, earnings := JsVal.num 100 }).isValid
        = true := by
      norm_num [computeValidation, isValidId, jsTrim, idCharOk, validateAndCorrectLevel,
        JsVal.truthy, validLevels, validateEarnings]
      decide
    simp [tsCalculateCommission, tsValidateStreamerData, hval]
  exact ⟨hsucc, C1_thm.1 0 _ hsucc⟩

/-- C2 (corrected), counterexample to the original claim: on the request
`GET /api/gas?action=health&foo=bar` the pair `foo=bar` does not appear on the
outgoing fetch URL — only the `action` parameter is forwarded. -/
theorem C2_cex :
    ¬ (∀ p ∈ ([("action", "health"), ("foo", "bar")] : QueryParams),
        paramAppearsIn p.1 p.2 (getFetchUrl [("action", "health"), ("foo", "bar")]) = true) := by
  decide

/-- C2 (corrected): the outgoing URL of both handlers depends only on the
`action` query parameter; a present nonempty `action` is forwarded unchanged,
and an absent `action` defaults to `health` (GET) and `updateStreamer` (POST).
All other query parameters are dropped. -/
theorem C2_thm :
    (∀ q₁ q₂ : QueryParams, searchParamsGet q₁ "action" = searchParamsGet q₂ "action" →
        getFetchUrl q₁ = getFetchUrl q₂ ∧ postFetchUrl q₁ = postFetchUrl q₂)
  ∧ (∀ (q : QueryParams) (a : String), searchParamsGet q "action" = some a → a ≠ "" →
        getFetchUrl q = GAS_API_URL ++ "?action=" ++ a
      ∧ postFetchUrl q = GAS_API_URL ++ "?action=" ++ a)
  ∧ (∀ q : QueryParams, searchParamsGet q "action" = none →
        getFetchUrl q = GAS_API_URL ++ "?action=health"
      ∧ postFetchUrl q = GAS_API_URL ++ "?action=updateStreamer") := by
  refine ⟨?_, ?_, ?_⟩
  · intro q₁ q₂ h
    constructor <;> simp [getFetchUrl, postFetchUrl, getActionParam, postActionParam, h]
  · intro q a h ha
    constructor <;> simp [getFetchUrl, postFetchUrl, getActionParam, postActionParam, h,
      jsOrElse, ha]
  · intro q h
    constructor <;>
      simp [getFetchUrl, postFetchUrl, getActionParam, postActionParam, h, jsOrElse] <;> rfl

/-- C2 witness: a request with `action=getStreamers` is proxied to the GAS URL
with exactly that action. -/
theorem C2_witness :
    getFetchUrl [("action", "getStreamers")] = GAS_API_URL ++ "?action=getStreamers"
  ∧ postFetchUrl [("action", "getStreamers")] = GAS_API_URL ++ "?action=getStreamers" :=
  C2_thm.2.1 [("action", "getStreamers")] "getStreamers" (by decide) (by decide)

/-- C3 (corrected), counterexample to the original claim: `validateStreamerData`
of `commission-validator.js` on a streamer with a missing level returns with
`correctedData.level` still `undefined` — not an integer between 1 and 5. -/
theorem C3_cex :
    ((jcValidateStreamerData
        { id := JsVal.str "s1", level := JsVal.undef,
          earnings := JsVal.num 100, country := JsVal.str "Colombia" }).correctedLevel
      = JsVal.undef)
  ∧ ¬ ∃ n : ℤ, 1 ≤ n ∧ n ≤ 5 ∧
      (jcValidateStreamerData
        { id := JsVal.str "s1", level := JsVal.undef,
          earnings := JsVal.num 100, country := JsVal.str "Colombia" }).correctedLevel
        = JsVal.num (n : ℚ) := by
  have h : (jcValidateStreamerData
      { id := JsVal.str "s1", level := JsVal.undef,
        earnings := JsVal.num 100, country := JsVal.str "Colombia" }).correctedLevel
      = JsVal.undef := by
    simp [jcValidateStreamerData, JsVal.truthy]
  refine ⟨h, ?_⟩
  rintro ⟨n, -, -, hc⟩
  rw [h] at hc
  cases hc

/-- C3 (corrected): the route's TypeScript `validateStreamerData` always
returns a `correctedData.level` that is an integer between 1 and 5;
`StreamerValidator.validateStreamer` assigns level 1 when the level is falsy or
numerically outside `[1, 5]`, but keeps an in-range non-integer level
unchanged; and `commission-validator.js` leaves a missing level uncorrected,
reporting the error `Nivel de streamer es requerido` instead. -/
theorem C3_thm :
    (∀ (t : ℤ) (d : TsStreamerData), ∃ n : ℤ, 1 ≤ n ∧ n ≤ 5
        ∧ (tsValidateStreamerData [] t d).1.correctedLevel = (n : ℚ))
  ∧ (∀ d : SvStreamerData,
      (optLevelTruthy d.level = false ∨ ∃ q : ℚ, d.level = some q ∧ (q < 1 ∨ q > 5)) →
      (svValidateStreamer d).correctedLevel = some 1)
  ∧ (∀ (d : SvStreamerData) (q : ℚ), d.level = some q → 1 ≤ q → q ≤ 5 →
      (svValidateStreamer d).correctedLevel = some q)
  ∧ (∀ d : JcStreamerData, d.level = JsVal.undef →
      (jcValidateStreamerData d).correctedLevel = JsVal.undef
      ∧ "Nivel de streamer es requerido" ∈ (jcValidateStreamerData d).errors) := by
  refine ⟨?_, ?_, ?_, ?_⟩
  · intro t d
    have hbridge : (tsValidateStreamerData [] t d).1 = computeValidation d := by
      simp [tsValidateStreamerData]
    have hmem := vacl_mem d.level d.earnings
    obtain ⟨n, h1, h5, hq⟩ := validLevels_int _ hmem
    refine ⟨n, h1, h5, ?_⟩
    rw [hbridge]
    simp [computeValidation]
    exact hq
  · intro d hbad
    rcases hbad with h | ⟨q, hq, hlt | hgt⟩
    · simp [svValidateStreamer, h]
    · simp [svValidateStreamer, hq, hlt]
    · simp [svValidateStreamer, hq, hgt]
  · intro d q hq h1 h5
    have htr : optLevelTruthy d.level = true := by
      rw [hq]
      simp [optLevelTruthy]
      intro h0
      rw [h0] at h1
      norm_num at h1
    have hn1 : ¬ q < 1 := not_lt.mpr h1
    have hn5 : ¬ q > 5 := not_lt.mpr h5
    rw [hq] at htr
    simp [svValidateStreamer, hq, htr, hn1, hn5]
  · intro d hl
    constructor
    · simp [jcValidateStreamerData, hl, JsVal.truthy]
    · simp [jcValidateStreamerData, hl, JsVal.truthy]

/-- C3 witness: `validateStreamer` corrects the out-of-range level 7 to 1. -/
theorem C3_witness :
    (svValidateStreamer
      { id := JsVal.str "s1", name := some "Ana", email := some "ana@gmail.com",
        country := some "Colombia", level := some 7, earnings := JsVal.num 100,
        phone := none, binanceEmail := none }).correctedLevel = some 1 :=
  C3_thm.2.1 _ (Or.inr ⟨7, rfl, Or.inr (by norm_num)⟩)

/-- C4 (confirmed): a pipeline error (a thrown fetch error, or a non-2xx status
turned into `HTTP error! status: <st>`) is caught and becomes a 500 response
`{success: false, error: <message>}`, while a successful pipeline yields a 200
response `{success: true, data}`; the same holds for POST. -/
theorem C4_thm :
    (∀ (α : Type) (e : String), gasGET (Except.error e : Except String α) =
      { status := 500, success := false, error := some e, hasData := false })
  ∧ (∀ (α : Type) (d : α), gasGET (Except.ok d) =
      { status := 200, success := true, error := none, hasData := true })
  ∧ (∀ (α : Type) (e : String), gasPOST (Except.error e : Except String α) =
      { status := 500, success := false, error := some e, hasData := false })
  ∧ (∀ (α : Type) (d : α), gasPOST (Except.ok d) =
      { status := 200, success := true, error := none, hasData := true })
  ∧ (∀ (α : Type) (st : ℕ) (body : α), ¬ (200 ≤ st ∧ st < 300) →
      gasGET (httpFetchResult (Except.ok (st, body))) =
        { status := 500, success := false,
          error := some ("HTTP error! status: " ++ toString st), hasData := false }) := by
  refine ⟨fun α e => rfl, fun α d => rfl, fun α e => rfl, fun α d => rfl, ?_⟩
  intro α st body h
  simp [httpFetchResult, gasGET, h]

/-- C4 witness: a 404 from the Apps Script backend becomes a caught
`HTTP error! status: 404` and a `{success: false}` 500 response. -/
theorem C4_witness :
    gasGET (httpFetchResult (Except.ok ((404 : ℕ), ()))) =
      { status := 500, success := false,
        error := some ("HTTP error! status: " ++ toString (404 : ℕ)), hasData := false } :=
  C4_thm.2.2.2.2 Unit 404 () (by decide)

/-- C5 (confirmed): `validateEarnings` reports an error exactly for a
non-number, `NaN`, a negative number, or a number above 1,000,000; a bad id
(missing, non-string, empty after trimming, or containing a character outside
`[a-zA-Z0-9_-]`) makes `validateStreamerData` report the id error; and
`isValid` holds exactly when the error list is empty. -/
theorem C5_thm :
    (∀ e : JsVal, (validateEarnings e).2 ≠ [] ↔
        (e.isNumberType = false ∨ e = JsVal.nan
          ∨ ∃ q : ℚ, e = JsVal.num q ∧ (q < 0 ∨ q > 1000000)))
  ∧ (∀ (t : ℤ) (d : TsStreamerData),
      ((∀ s, d.id ≠ JsVal.str s)
        ∨ ∃ s, d.id = JsVal.str s ∧ (jsTrim s = "" ∨ ∃ c ∈ s.data, idCharOk c = false)) →
      "ID de streamer es requerido y debe ser string válido"
        ∈ (tsValidateStreamerData [] t d).1.errors)
  ∧ (∀ (t : ℤ) (d : TsStreamerData),
      (tsValidateStreamerData [] t d).1.isValid = true
        ↔ (tsValidateStreamerData [] t d).1.errors = []) := by
  refine ⟨?_, ?_, ?_⟩
  · intro e
    cases e with
    | undef => simp [validateEarnings, JsVal.isNumberType]
    | nan => simp [validateEarnings, JsVal.isNumberType]
    | str s => simp [validateEarnings, JsVal.isNumberType]
    | num q =>
      simp only [validateEarnings, JsVal.isNumberType]
      split_ifs with h1 h2
      · simp
        exact Or.inl h1
      · simp
        exact Or.inr h2
      · simp
        push_neg at h1 h2
        exact ⟨h1, h2⟩
  · intro t d hbad
    have hbridge : (tsValidateStreamerData [] t d).1 = computeValidation d := by
      simp [tsValidateStreamerData]
    have hfalse : isValidId d.id = false := (isValidId_eq_false_iff d.id).mpr hbad
    rw [hbridge]
    simp [computeValidation, hfalse]
  · intro t d
    have hbridge : (tsValidateStreamerData [] t d).1 = computeValidation d := by
      simp [tsValidateStreamerData]
    rw [hbridge]
    exact computeValidation_isValid_iff d

/-- C5 witness: a missing id is flagged. -/
theorem C5_witness :
    "ID de streamer es requerido y debe ser string válido"
      ∈ (tsValidateStreamerData [] 0
          { id := JsVal.undef, level := JsVal.num 3, earnings := JsVal.num 100 }).1.errors :=
  C5_thm.2.1 0 _ (Or.inl fun _ h => JsVal.noConfusion h)

/-- C6 (confirmed): the error classifier is a pure function of the lowercased
message text — every other field of the error is ignored — and it equals the
specification-side cascade (network/connection/timeout, then
api/http/500/404, then validation/invalid, then auth/unauthorized, else
unknown) on that text. -/
theorem C6_thm :
    (∀ e₁ e₂ : JsError, e₁.message = e₂.message → classifyError e₁ = classifyError e₂)
  ∧ (∀ e : JsError, classifyError e = specClassifyError (loweredMessage e)) := by
  constructor
  · intro e₁ e₂ h
    have hm : loweredMessage e₁ = loweredMessage e₂ := by
      simp [loweredMessage, h]
    simp [classifyError, hm]
  · intro e
    rfl

/-- C6 witness: two errors with the same message but different names and
stacks are classified alike. -/
theorem C6_witness :
    classifyError { message := some "Network down", name := "TypeError", stack := "s1" }
      = classifyError { message := some "Network down", name := "RangeError", stack := "s2" } :=
  C6_thm.1 _ _ rfl

/-! Loop lemmas for `executeWithRetry`. -/

/-- Each attempt of the retry loop invokes the operation at most once. -/
theorem retryGo_invocations_le {α : Type} (cfg : RetryConfig) (threshold : ℕ)
    (strategy : RetryStrategy) (now : ℕ → ℤ) (jitter : ℕ → ℚ) (ops : ℕ → Except String α) :
    ∀ (r attempt inv : ℕ) (cb : CircuitBreaker) (lastErr : Option String) (sleeps : List ℚ),
      (retryGo cfg threshold strategy now jitter ops attempt r inv cb lastErr sleeps).invocations
        ≤ inv + r := by
  intro r
  induction r with
  | zero =>
    intro attempt inv cb lastErr sleeps
    simp [retryGo]
  | succ r ih =>
    intro attempt inv cb lastErr sleeps
    rw [retryGo]
    split_ifs
    all_goals try exact le_trans (ih _ _ _ _ _) (by omega)
    all_goals
      cases hop : ops inv with
      | ok v =>
        simp only [hop]
        simp
      | error e =>
        simp only [hop]
        exact le_trans (ih _ _ _ _ _) (by omega)

/-- When every invocation fails and the breaker starts closed with enough
headroom, the loop runs all the attempts: it performs one invocation and one
sleep per attempt (except after the last), and ends with the final error
message built from the attempt count and the last underlying message. -/
theorem retryGo_all_fail {α : Type} (cfg : RetryConfig) (threshold : ℕ)
    (strategy : RetryStrategy) (now : ℕ → ℤ) (jitter : ℕ → ℚ)
    (ops : ℕ → Except String α) (msg : ℕ → String)
    (hops : ∀ k, ops k = Except.error (msg k)) :
    ∀ (r attempt inv : ℕ) (cb : CircuitBreaker) (lastErr : Option String) (sleeps : List ℚ),
      1 ≤ r →
      attempt + r = cfg.maxRetries + 1 →
      cb.state = CBState.closed →
      cb.failureCount + r ≤ threshold →
      (retryGo cfg threshold strategy now jitter ops attempt r inv cb lastErr sleeps).result
          = Except.error (failAfterMessage cfg.maxRetries (msg (inv + r - 1)))
      ∧ (retryGo cfg threshold strategy now jitter ops attempt r inv cb lastErr sleeps).invocations
          = inv + r
      ∧ (retryGo cfg threshold strategy now jitter ops attempt r inv cb lastErr
            sleeps).sleeps.length
          = sleeps.length + (r - 1) := by
  intro r
  induction r with
  | zero =>
    intro attempt inv cb lastErr sleeps h1
    omega
  | succ r ih =>
    intro attempt inv cb lastErr sleeps _h1 hattempt hstate hcount
    have hnotopen : ¬ (cb.state = CBState.cbOpen
        ∧ ¬ (now attempt - (cb.lastFailureTime.getD 0) > cfg.circuitBreakerTimeout)) := by
      rw [hstate]
      rintro ⟨h, -⟩
      cases h
    rw [retryGo, if_neg hnotopen]
    have hcb₁ : (if cb.state = CBState.cbOpen then { cb with state := CBState.halfOpen }
        else cb) = cb := by
      rw [hstate]
      simp
    rw [hcb₁, hops inv]
    cases r with
    | zero =>
      have hatt : ¬ attempt < cfg.maxRetries := by omega
      simp [retryGo, hatt]
    | succ r' =>
      have hattlt : attempt < cfg.maxRetries := by omega
      have hstate' : (updateCircuitBreaker threshold cb (now attempt)).state
          = CBState.closed := by
        have hth : ¬ threshold ≤ cb.failureCount + 1 := by omega
        simp [updateCircuitBreaker, hth, hstate]
      have hcount' : (updateCircuitBreaker threshold cb (now attempt)).failureCount
          + (r' + 1) ≤ threshold := by
        simp [updateCircuitBreaker]
        omega
      have := ih (attempt + 1) (inv + 1) (updateCircuitBreaker threshold cb (now attempt))
        (some (msg inv))
        (sleeps ++ [calculateDelay strategy attempt cfg (jitter attempt)])
        (by omega) (by omega) hstate' hcount'
      obtain ⟨hres, hinv, hslp⟩ := this
      simp only [hattlt, if_pos]
      refine ⟨?_, ?_, ?_⟩
      · have harg : inv + 1 + (r' + 1) - 1 = inv + (r' + 1 + 1) - 1 := by omega
        rw [hres, harg]
      · rw [hinv]
        omega
      · have hlen : (sleeps ++ [calculateDelay strategy attempt cfg (jitter attempt)]).length
            = sleeps.length + 1 := by simp
        rw [hslp, hlen]
        omega

/-- When the first `k` invocations fail and the `k`-th succeeds (still within
the attempt budget, breaker closed with headroom), the loop returns that
success immediately after `k + 1` invocations and `k` sleeps. -/
theorem retryGo_first_success {α : Type} (cfg : RetryConfig) (threshold : ℕ)
    (strategy : RetryStrategy) (now : ℕ → ℤ) (jitter : ℕ → ℚ) (ops : ℕ → Except String α) :
    ∀ (r k attempt inv : ℕ) (cb : CircuitBreaker) (lastErr : Option String) (sleeps : List ℚ)
      (err : ℕ → String) (v : α),
      k < r →
      attempt + r = cfg.maxRetries + 1 →
      cb.state = CBState.closed →
      cb.failureCount + r ≤ threshold →
      (∀ i, i < k → ops (inv + i) = Except.error (err i)) →
      ops (inv + k) = Except.ok v →
      (retryGo cfg threshold strategy now jitter ops attempt r inv cb lastErr sleeps).result
          = Except.ok v
      ∧ (retryGo cfg threshold strategy now jitter ops attempt r inv cb lastErr
          sleeps).invocations = inv + k + 1
      ∧ (retryGo cfg threshold strategy now jitter ops attempt r inv cb lastErr
          sleeps).sleeps.length = sleeps.length + k := by
  intro r
  induction r with
  | zero =>
    intro k attempt inv cb lastErr sleeps err v hk
    omega
  | succ r ih =>
    intro k attempt inv cb lastErr sleeps err v hk hatt hstate hcount herr hok
    have hnotopen : ¬ (cb.state = CBState.cbOpen
        ∧ ¬ (now attempt - (cb.lastFailureTime.getD 0) > cfg.circuitBreakerTimeout)) := by
      rw [hstate]
      rintro ⟨h, -⟩
      cases h
    rw [retryGo, if_neg hnotopen]
    have hcb₁ : (if cb.state = CBState.cbOpen then { cb with state := CBState.halfOpen }
        else cb) = cb := by
      rw [hstate]
      simp
    rw [hcb₁]
    cases k with
    | zero =>
      have h0 : ops inv = Except.ok v := by simpa using hok
      rw [h0]
      simp
    | succ k' =>
      have h0 : ops inv = Except.error (err 0) := by simpa using herr 0 (by omega)
      rw [h0]
      have hattlt : attempt < cfg.maxRetries := by omega
      have hstate' : (updateCircuitBreaker threshold cb (now attempt)).state
          = CBState.closed := by
        have hth : ¬ threshold ≤ cb.failureCount + 1 := by omega
        simp [updateCircuitBreaker, hth, hstate]
      have hcount' : (updateCircuitBreaker threshold cb (now attempt)).failureCount + r
          ≤ threshold := by
        simp [updateCircuitBreaker]
        omega
      have herr' : ∀ i, i < k' → ops (inv + 1 + i) = Except.error ((fun j => err (j + 1)) i) := by
        intro i hi
        have hidx : inv + 1 + i = inv + (i + 1) := by omega
        rw [hidx]
        exact herr (i + 1) (by omega)
      have hok' : ops (inv + 1 + k') = Except.ok v := by
        have hidx : inv + 1 + k' = inv + (k' + 1) := by omega
        rw [hidx]
        exact hok
      have := ih k' (attempt + 1) (inv + 1) (updateCircuitBreaker threshold cb (now attempt))
        (some (err 0)) (sleeps ++ [calculateDelay strategy attempt cfg (jitter attempt)])
        (fun j => err (j + 1)) v (by omega) (by omega) hstate' hcount' herr' hok'
      obtain ⟨hres, hinv, hslp⟩ := this
      simp only [hattlt, if_pos]
      refine ⟨hres, ?_, ?_⟩
      · rw [hinv]
        omega
      · have hlen : (sleeps ++ [calculateDelay strategy attempt cfg (jitter attempt)]).length
            = sleeps.length + 1 := by simp
        rw [hslp, hlen]
        omega

/-- C7 (confirmed): `executeWithRetry` invokes the operation at most
`maxRetries` times from any breaker state; from the initial breaker it returns
the first successful attempt's result immediately (`k` failures before the
success cost `k` extra invocations and `k` sleeps, and nothing is invoked after
the success); and when every attempt fails it performs one sleep between
consecutive attempts and throws `Operación falló después de <maxRetries>
intentos. Último error: <last message>`. -/
theorem C7_thm :
    (∀ (α : Type) (cfg : RetryConfig) (threshold : ℕ) (strategy : RetryStrategy)
        (now : ℕ → ℤ) (jitter : ℕ → ℚ) (ops : ℕ → Except String α) (cb : CircuitBreaker),
        (executeWithRetry cfg threshold strategy now jitter ops cb).invocations ≤ cfg.maxRetries)
  ∧ (∀ (α : Type) (cfg : RetryConfig) (threshold : ℕ) (strategy : RetryStrategy)
        (now : ℕ → ℤ) (jitter : ℕ → ℚ) (ops : ℕ → Except String α)
        (k : ℕ) (err : ℕ → String) (v : α),
        k < cfg.maxRetries → cfg.maxRetries ≤ threshold →
        (∀ i, i < k → ops i = Except.error (err i)) → ops k = Except.ok v →
        (executeWithRetry cfg threshold strategy now jitter ops
            initialCircuitBreaker).result = Except.ok v
        ∧ (executeWithRetry cfg threshold strategy now jitter ops
            initialCircuitBreaker).invocations = k + 1
        ∧ (executeWithRetry cfg threshold strategy now jitter ops
            initialCircuitBreaker).sleeps.length = k)
  ∧ (∀ (α : Type) (cfg : RetryConfig) (threshold : ℕ) (strategy : RetryStrategy)
        (now : ℕ → ℤ) (jitter : ℕ → ℚ) (ops : ℕ → Except String α) (msg : ℕ → String),
        1 ≤ cfg.maxRetries → cfg.maxRetries ≤ threshold →
        (∀ k, ops k = Except.error (msg k)) →
        (executeWithRetry cfg threshold strategy now jitter ops
            initialCircuitBreaker).result
          = Except.error (failAfterMessage cfg.maxRetries (msg (cfg.maxRetries - 1)))
        ∧ (executeWithRetry cfg threshold strategy now jitter ops
            initialCircuitBreaker).invocations = cfg.maxRetries
        ∧ (executeWithRetry cfg threshold strategy now jitter ops
            initialCircuitBreaker).sleeps.length = cfg.maxRetries - 1) := by
  refine ⟨?_, ?_, ?_⟩
  · intro α cfg threshold strategy now jitter ops cb
    simpa [executeWithRetry] using
      retryGo_invocations_le cfg threshold strategy now jitter ops cfg.maxRetries 1 0 cb none []
  · intro α cfg threshold strategy now jitter ops k err v hk hth herr hok
    have herr0 : ∀ i, i < k → ops (0 + i) = Except.error (err i) := by
      intro i hi
      simpa using herr i hi
    have hok0 : ops (0 + k) = Except.ok v := by simpa using hok
    have := retryGo_first_success cfg threshold strategy now jitter ops
      cfg.maxRetries k 1 0 initialCircuitBreaker none [] err v hk (by omega) rfl
      (by simp [initialCircuitBreaker]; omega) herr0 hok0
    obtain ⟨hres, hinv, hslp⟩ := this
    rw [executeWithRetry]
    refine ⟨hres, ?_, ?_⟩
    · rw [hinv]
      omega
    · rw [hslp]
      simp
  · intro α cfg threshold strategy now jitter ops msg h1 hth hops
    have := retryGo_all_fail cfg threshold strategy now jitter ops msg hops
      cfg.maxRetries 1 0 initialCircuitBreaker none [] h1 (by omega) rfl
      (by simp [initialCircuitBreaker]; omega)
    obtain ⟨hres, hinv, hslp⟩ := this
    rw [executeWithRetry]
    refine ⟨?_, ?_, ?_⟩
    · rw [hres]
      simp
    · rw [hinv]
      simp
    · rw [hslp]
      simp

/-- C7 witness: with the default configuration, one failure followed by a
success yields the success after 2 invocations and 1 sleep. -/
theorem C7_witness :
    (executeWithRetry defaultRetryConfig defaultCircuitBreakerThreshold
        RetryStrategy.exponential (fun _ => 0) (fun _ => 0)
        (fun n => if n = 0 then Except.error "boom" else Except.ok (7 : ℕ))
        initialCircuitBreaker).result = Except.ok 7
  ∧ (executeWithRetry defaultRetryConfig defaultCircuitBreakerThreshold
        RetryStrategy.exponential (fun _ => 0) (fun _ => 0)
        (fun n => if n = 0 then Except.error "boom" else Except.ok (7 : ℕ))
        initialCircuitBreaker).invocations = 2
  ∧ (executeWithRetry defaultRetryConfig defaultCircuitBreakerThreshold
        RetryStrategy.exponential (fun _ => 0) (fun _ => 0)
        (fun n => if n = 0 then Except.error "boom" else Except.ok (7 : ℕ))
        initialCircuitBreaker).sleeps.length = 1 :=
  C7_thm.2.1 ℕ defaultRetryConfig defaultCircuitBreakerThreshold RetryStrategy.exponential
    (fun _ => 0) (fun _ => 0)
    (fun n => if n = 0 then Except.error "boom" else Except.ok 7) 1 (fun _ => "boom") 7
    (by decide) (by decide)
    (by
      intro i hi
      have h0 : i = 0 := by omega
      subst h0
      rfl)
    rfl

/-- C8 (confirmed): `CommissionService.calculateCommission` only ever creates
commissions with status `pending`; the document stored by
`FirestoreService.createCommission` has status `pending` whatever the input
carried; and the sheets export writes a status in
`{pending, paid, failed}` whenever the stored one is; each such status lies in
the data model's set. -/
theorem C8_thm :
    (∀ (s : Option CsStreamer) (sid : String) (amount : ℚ) (app : String) (c : CsCommission),
        csCalculateCommission s sid amount app = Except.ok c →
        c.status = "pending" ∧ c.status ∈ validCommissionStatuses)
  ∧ (∀ st : Option String, fsCreateCommissionStatus st = "pending"
      ∧ fsCreateCommissionStatus st ∈ validCommissionStatuses)
  ∧ (∀ st : Option String, (∀ x, st = some x → x ∈ validCommissionStatuses) →
      syncCommissionRowStatus st ∈ validCommissionStatuses) := by
  refine ⟨?_, ?_, ?_⟩
  · intro s sid amount app c h
    cases s with
    | none => simp [csCalculateCommission] at h
    | some rec =>
      simp only [csCalculateCommission] at h
      injection h with h
      rw [← h]
      exact ⟨rfl, by simp [validCommissionStatuses]⟩
  · intro st
    exact ⟨rfl, by simp [fsCreateCommissionStatus, validCommissionStatuses]⟩
  · intro st hst
    cases st with
    | none => simp [syncCommissionRowStatus, jsOrElse, validCommissionStatuses]
    | some x =>
      by_cases hx : x = ""
      · simp [syncCommissionRowStatus, jsOrElse, hx, validCommissionStatuses]
      · simpa [syncCommissionRowStatus, jsOrElse, hx] using hst x rfl

/-- C8 witness: a level-3 streamer's freshly calculated commission has status
`pending`. -/
theorem C8_witness :
    ∃ c : CsCommission,
      csCalculateCommission (some { name := some "Ana", agency := none, level := some 3 })
        "s1" 100 "yameet" = Except.ok c
      ∧ c.status = "pending" := by
  have h : csCalculateCommission (some { name := some "Ana", agency := none, level := some 3 })
      "s1" 100 "yameet"
      = Except.ok
        { streamerId := "s1", streamerName := some "Ana", agency := "luxeryprime",
          app := "yameet", level := 3, baseAmount := 100, commissionRate := 0.25,
          commissionAmount := 100 * 0.25, netAmount := 100 - 100 * 0.25,
          status := "pending" } := by
    norm_num [csCalculateCommission, commissionRates, jsOrElse]
  exact ⟨_, h, (C8_thm.1 _ _ _ _ _ h).1⟩

/-- C9 (confirmed): on one validator instance, a second `validateStreamerData`
call within the expiry window whose input has the same id and earnings as the
first call returns the first call's cached result — the second input's level
has no influence on the second call's output. -/
theorem C9_thm :
    ∀ (cache : ValidationCache) (t₁ t₂ : ℤ) (d₁ d₂ : TsStreamerData),
      d₁.id = d₂.id → d₁.earnings = d₂.earnings →
      List.lookup (cacheKey d₁) cache = none →
      t₂ - t₁ < cacheExpiryMs →
      (tsValidateStreamerData ((tsValidateStreamerData cache t₁ d₁).2) t₂ d₂).1
        = (tsValidateStreamerData cache t₁ d₁).1 := by
  intro cache t₁ t₂ d₁ d₂ hid hearn hmiss hfresh
  have hkey : cacheKey d₂ = cacheKey d₁ := by
    simp [cacheKey, hid, hearn]
  have hfirst : tsValidateStreamerData cache t₁ d₁
      = (computeValidation d₁, (cacheKey d₁, computeValidation d₁, t₁) :: cache) := by
    simp [tsValidateStreamerData, hmiss]
  rw [hfirst]
  simp [tsValidateStreamerData, hkey, List.lookup, hfresh]

/-- C9 witness: two calls with equal id and earnings but levels 3 and 1 within
the window return the same result. -/
theorem C9_witness :
    (tsValidateStreamerData
        ((tsValidateStreamerData [] 0
          { id := JsVal.str "s1", level := JsVal.num 3, earnings := JsVal.num 100 }).2) 1
        { id := JsVal.str "s1", level := JsVal.num 1, earnings := JsVal.num 100 }).1
      = (tsValidateStreamerData [] 0
          { id := JsVal.str "s1", level := JsVal.num 3, earnings := JsVal.num 100 }).1 :=
  C9_thm [] 0 1 _ _ rfl rfl rfl (by decide)

/-- C10 (confirmed): in `commission-validator.js` a falsy (in particular 0) or
negative earnings value is rejected with `Ganancias deben ser un número
positivo`, and `calculateCommission` on a streamer with earnings 0 therefore
returns `{success: false, commission: 0}` with the validation error message. -/
theorem C10_thm :
    (∀ d : JcStreamerData, (d.earnings.truthy = false ∨ jsLt d.earnings 0 = true) →
        "Ganancias deben ser un número positivo" ∈ (jcValidateStreamerData d).errors)
  ∧ (∀ d : JcStreamerData, d.earnings = JsVal.num 0 →
        (jcCalculateCommission d).success = false
      ∧ (jcCalculateCommission d).commission = some 0
      ∧ (jcCalculateCommission d).error
          = some ("Datos de streamer inválidos: "
              ++ String.intercalate ", " (jcValidateStreamerData d).errors)) := by
  have base : ∀ d : JcStreamerData, (d.earnings.truthy = false ∨ jsLt d.earnings 0 = true) →
      "Ganancias deben ser un número positivo" ∈ (jcValidateStreamerData d).errors := by
    intro d hbad
    rcases hbad with h | h <;> simp [jcValidateStreamerData, h]
  refine ⟨base, ?_⟩
  intro d h0
  have htr : d.earnings.truthy = false := by
    rw [h0]
    simp [JsVal.truthy]
  have hmem := base d (Or.inl htr)
  have hv := jcValidation_errors_nonempty d hmem
  refine ⟨?_, ?_, ?_⟩ <;> simp [jcCalculateCommission, hv]

/-- C10 witness: earnings 0 yields a failed calculation. -/
theorem C10_witness :
    (jcCalculateCommission
      { id := JsVal.str "s1", level := JsVal.num 3,
        earnings := JsVal.num 0, country := JsVal.str "Colombia" }).success = false :=
  (C10_thm.2 _ rfl).1
